import Mathlib

/-!
Shallow embedding of the `eos-websocket-client` log-viewer core: the key
parser (`EosKey`), log entries (`EosLogEntry`), per-group aggregation
(`EosLogGroup.add`) and the ingestion service (`Eos.addLogEntry`,
`Eos.logSelf`, `Eos.disconnect`, `Eos.onWebsocketMessage`), together with
theorems settling the specification's claims about that code.

JavaScript machine model: values are modelled by `JsVal` (undefined, NaN,
booleans, integer-valued numbers, strings, plain objects as ordered field
lists); the wall clock (`new Date()`) is threaded as a `Nat` parameter;
the host's `JSON.parse` builtin is threaded as a parameter
`jp : String → Option JsVal` where `none` models a thrown `SyntaxError`;
event-emitter `emit` calls are collected into a `List EosEvent`; an
exception escaping a method is modelled by an `Option String` component of
the result (`some msg` = the throw propagated to the caller).
-/

namespace EosWs

/-- Model of the JavaScript values flowing through the client. Numbers are
modelled by `Int` (no claim depends on fractional values); `nanV` is the
number `NaN`; objects are ordered association lists. -/
inductive JsVal where
  | undefV : JsVal
  | nanV : JsVal
  | boolV : Bool → JsVal
  | numV : Int → JsVal
  | strV : String → JsVal
  | objV : List (String × JsVal) → JsVal

/-- JavaScript truthiness: `undefined`, `NaN`, `false`, `0` and `""` are
falsy; every object (including `[]` and `{}`) is truthy. -/
def JsVal.truthy : JsVal → Bool
  | .undefV => false
  | .nanV => false
  | .boolV b => b
  | .numV n => n != 0
  | .strV s => s != ""
  | .objV _ => true

/-- Property access `v[k]` / `v.k`: a missing field or a primitive
receiver yields `undefined`. -/
def JsVal.getProp : JsVal → String → JsVal
  | .objV fields, k =>
    match fields.lookup k with
    | some v => v
    | none => .undefV
  | _, _ => .undefV

/-- JavaScript `String(v)` coercion for the value shapes of the model. -/
def JsVal.jsToStr : JsVal → String
  | .undefV => "undefined"
  | .nanV => "NaN"
  | .boolV b => if b then "true" else "false"
  | .numV n => toString n
  | .strV s => s
  | .objV _ => "[object Object]"

/-- JavaScript `Number(v)` coercion; `none` models `NaN`. -/
def JsVal.jsToNum : JsVal → Option Int
  | .undefV => none
  | .nanV => none
  | .boolV b => some (if b then 1 else 0)
  | .numV n => some n
  | .strV s => if s.trim = "" then some 0 else s.trim.toInt?
  | .objV _ => none

/-- ToPrimitive step of the `+` operator: plain objects convert to their
string form, every other value is already primitive. -/
def JsVal.toPrimitive : JsVal → JsVal
  | .objV fields => .strV (JsVal.objV fields).jsToStr
  | v => v

/-- JavaScript binary `+`: string concatenation when either primitive
operand is a string, numeric addition (with `NaN` contagion) otherwise. -/
def jsAdd (a b : JsVal) : JsVal :=
  match a.toPrimitive, b.toPrimitive with
  | .strV s, y => .strV (s ++ y.jsToStr)
  | x, .strV s => .strV (x.jsToStr ++ s)
  | x, y =>
    match x.jsToNum, y.jsToNum with
    | some m, some n => .numV (m + n)
    | _, _ => .nanV

/-- JavaScript `String.prototype.trim` on the character list: whitespace
stripped from both ends. -/
def jsTrim (cs : List Char) : List Char :=
  ((cs.dropWhile Char.isWhitespace).reverse.dropWhile Char.isWhitespace).reverse

/-- JavaScript `String.prototype.split` with a one-character separator:
`"".split(sep)` is `[""]` and separators at the ends produce empty
pieces. -/
def splitOnChar (sep : Char) : List Char → List (List Char)
  | [] => [[]]
  | c :: rest =>
    let r := splitOnChar sep rest
    if c = sep then [] :: r
    else
      match r with
      | [] => [[c]]
      | hd :: tl => (c :: hd) :: tl

/-- The parsed key `schema://identifier[:tag]*` (constructor `EosKey` in
the source). -/
structure EosKey where
  src : String
  schema : String
  key : String
  tags : List String
deriving DecidableEq

/-- Source constant `EosDefaultId`. -/
def EosDefaultId : String := "--default--"

/-- Executing the regex `/^([a-z]+):\/\/([^:]+)/i` on `s`: a nonempty
maximal run of ascii letters (either case, the `i` flag), the literal
`://`, then a nonempty maximal run of non-colon characters. Returns
`(match group 1, match group 2, remainder after the whole match)`;
`none` models a failed `exec`. Greedy matching is deterministic here
because `:` is not a letter and the second group excludes `:`. -/
def execKeySchema (s : String) : Option (String × String × String) :=
  let cs := s.toList
  let schemaCs := cs.takeWhile Char.isAlpha
  let afterSchema := cs.dropWhile Char.isAlpha
  if schemaCs.isEmpty then none
  else
    match afterSchema with
    | ':' :: '/' :: '/' :: rest =>
      let keyCs := rest.takeWhile (fun c => c != ':')
      let afterKey := rest.dropWhile (fun c => c != ':')
      if keyCs.isEmpty then none
      else some (String.mk schemaCs, String.mk keyCs, String.mk afterKey)
    | _ => none

/-- The `EosKey` constructor: throws (`.error`) on a non-string source or
when the schema regex does not match; otherwise records the match groups
and computes tags by stripping the matched prefix, trimming, splitting on
`:` and discarding empty tokens. -/
def EosKey.parse (source : JsVal) : Except String EosKey :=
  match source with
  | .strV s =>
    match execKeySchema s with
    | some (sch, k, rest) =>
      .ok { src := s
            schema := sch
            key := k
            tags := ((splitOnChar ':' (jsTrim rest.data)).map String.mk).filter
              (fun x => x != "") }
    | none => .error "Cannot parse schema"
  | _ => .error "Not valid key source provided"

/-- Source constant `EosLoggingKey = new EosKey("log://eos")`. -/
def EosLoggingKey : EosKey :=
  { src := "log://eos", schema := "log", key := "eos", tags := [] }

/-- One received log message (constructor `EosLogEntry` in the source).
The source field `object` is the best-effort structured payload and
`eosId` models the source's `_id` field. -/
structure EosLogEntry where
  key : EosKey
  data : JsVal
  message : JsVal
  index : Nat
  object : JsVal
  eosId : JsVal
  receivedAt : Nat

/-- The `EosLogEntry` constructor: for string data, `JSON.parse` inside
try/catch with `{}` as the fallback; for any non-string data the payload
is the data itself. `message` is `object.message` unless that is falsy,
in which case it is the raw data; `_id` is `object["eos-id"]`. -/
def mkEosLogEntry (jp : String → Option JsVal) (key : EosKey) (data : JsVal)
    (now : Nat) : EosLogEntry :=
  let object : JsVal :=
    match data with
    | .strV s =>
      match jp s with
      | some v => v
      | none => .objV []
    | _ => data
  let message : JsVal :=
    if (object.getProp "message").truthy then object.getProp "message" else data
  { key := key
    data := data
    message := message
    index := 1
    object := object
    eosId := object.getProp "eos-id"
    receivedAt := now }

/-- Method `getId`: the entry's `_id` when truthy, else the default
sentinel. The raw `_id` value is returned, so a non-string id reaches the
group map, where JavaScript coerces property keys to strings. -/
def EosLogEntry.getId (e : EosLogEntry) : JsVal :=
  if e.eosId.truthy then e.eosId else .strV EosDefaultId

/-- Method `hasException`: `this.object && this.object.exception`, used
only for its truthiness. -/
def EosLogEntry.hasException (e : EosLogEntry) : Bool :=
  e.object.truthy && (e.object.getProp "exception").truthy

/-- Method `hasSql`. -/
def EosLogEntry.hasSql (e : EosLogEntry) : Bool :=
  e.object.truthy && (e.object.getProp "sql").truthy

/-- Method `hasPerformanceLog`: the trigger reads the `time` field. -/
def EosLogEntry.hasPerformanceLog (e : EosLogEntry) : Bool :=
  e.object.truthy && (e.object.getProp "time").truthy

/-- Spec-side predicate, named after the specification's words
"structured payload contains an `exception`/`sql`/`time` field": plain
key presence, regardless of the field's value. Kept separate from the
source predicates above so the two can be compared. -/
def specContainsField (v : JsVal) (k : String) : Bool :=
  match v with
  | .objV fields => (fields.lookup k).isSome
  | _ => false

/-- The per-id accumulator (constructor `EosLogGroup`). `sharedTags` is
`Option` so that the source's `null` initial state is explicit;
`performance` is a raw JavaScript value because `+=` can produce `NaN`
or a string. -/
structure EosLogGroup where
  id : String
  items : List EosLogEntry
  count : Nat
  sharedTags : Option (List String)
  sqlCount : Nat
  errorsCount : Nat
  performance : JsVal
  firstReceivedAt : Nat
  lastReceivedAt : Nat

/-- The `EosLogGroup` constructor. -/
def EosLogGroup.init (id : String) (now : Nat) : EosLogGroup :=
  { id := id
    items := []
    count := 0
    sharedTags := none
    sqlCount := 0
    errorsCount := 0
    performance := .numV 0
    firstReceivedAt := now
    lastReceivedAt := now }

/-- Underscore's `_.intersection(a, b)`: the values of `a`, in order and
deduplicated, that also occur in `b`. -/
def underscoreIntersection (a b : List String) : List String :=
  a.foldl
    (fun result item =>
      if result.contains item then result
      else if b.contains item then result ++ [item] else result)
    []

/-- Method `EosLogGroup.add`. The shared-tag update sits in the source
under `if (entry.key.tags)`; `tags` is always an array and every array
(including `[]`) is truthy in JavaScript, so that guard passes for every
entry and is omitted here. -/
def EosLogGroup.add (g : EosLogGroup) (entry : EosLogEntry) : EosLogGroup :=
  let count := g.count + 1
  let errorsCount := if entry.hasException then g.errorsCount + 1 else g.errorsCount
  let sqlCount := if entry.hasSql then g.sqlCount + 1 else g.sqlCount
  let performance :=
    if entry.hasPerformanceLog then jsAdd g.performance (entry.object.getProp "perf")
    else g.performance
  let sharedTags :=
    match g.sharedTags with
    | none => some entry.key.tags
    | some ts => if ts.length = 0 then some ts else some (underscoreIntersection ts entry.key.tags)
  { g with
    count := count
    lastReceivedAt := entry.receivedAt
    errorsCount := errorsCount
    sqlCount := sqlCount
    performance := performance
    sharedTags := sharedTags
    items := g.items ++ [entry] }

/-- Method `getSharedTags`: `null` (and only `null`) is falsy, an array is
truthy, so this returns the stored list or `[]` when still `null`. -/
def EosLogGroup.getSharedTags (g : EosLogGroup) : List String :=
  match g.sharedTags with
  | some ts => ts
  | none => []

/-- Notifications emitted through the event emitter, plus the transport
`close()` side effect. -/
inductive EosEvent where
  | log : String → EosEvent
  | debugS : String → EosEvent
  | debugE : EosLogEntry → EosEvent
  | connectedEv : EosEvent
  | connectionError : EosEvent
  | disconnectEv : EosEvent
  | newLogEntry : EosLogEntry → EosLogGroup → EosEvent
  | socketClose : EosEvent

/-- The `Eos` service state: socket handle, connected flag and the group
map (a JavaScript object, modelled as an insertion-ordered association
list with string keys). -/
structure EosState where
  socket : Option Unit
  connected : Bool
  groups : List (String × EosLogGroup)

/-- The `Eos` constructor state: disconnected, no socket, empty map. -/
def Eos.initState : EosState :=
  { socket := none, connected := false, groups := [] }

/-- Assignment `groups[id] = g` on the association list: replace in place
when the key exists, append otherwise (JavaScript object key order). -/
def setGroup : List (String × EosLogGroup) → String → EosLogGroup →
    List (String × EosLogGroup)
  | [], id, g => [(id, g)]
  | (k, v) :: rest, id, g =>
    if k = id then (k, g) :: rest else (k, v) :: setGroup rest id g

/-- Method `Eos.addLogEntry`: look up or lazily create the group for
`entry.getId()`, call its `add`, then assign `entry.index = group.count`.
The pushed array element is the same object as the mutated entry, so the
post-hoc index assignment is also visible through `items`; the model
replaces the just-pushed element accordingly. -/
def Eos.addLogEntry (s : EosState) (now : Nat) (entry : EosLogEntry) :
    EosState × List EosEvent :=
  let id := (entry.getId).jsToStr
  let group :=
    match s.groups.lookup id with
    | some g => g
    | none => EosLogGroup.init id now
  let g1 := group.add entry
  let entry2 := { entry with index := g1.count }
  let g2 := { g1 with items := g1.items.dropLast ++ [entry2] }
  ({ s with groups := setGroup s.groups id g2 }, [.newLogEntry entry2 g2])

/-- Method `Eos.logSelf`: emit a `log` notification and push a synthetic
entry under `EosLoggingKey` with `eos-id` forced to `"eos"` through the
normal grouping pipeline. -/
def Eos.logSelf (jp : String → Option JsVal) (s : EosState) (now : Nat)
    (msg : String) (object : JsVal) : EosState × List EosEvent :=
  let entry := mkEosLogEntry jp EosLoggingKey
    (.objV [("message", .strV msg), ("eos-id", .strV "eos"), ("object", object)]) now
  let r := Eos.addLogEntry s now entry
  (r.1, .log msg :: r.2)

/-- Method `Eos.disconnect`: always self-log "Disconnecting" and emit the
`disconnect` notification; only when connected, clear the flag, close the
socket and null the handle. `this.socket.close()` on a null handle would
throw, modelled by the `Option String` component. -/
def Eos.disconnect (jp : String → Option JsVal) (s : EosState) (now : Nat) :
    (EosState × List EosEvent) × Option String :=
  let r := Eos.logSelf jp s now "Disconnecting" .undefV
  let evs := r.2 ++ [EosEvent.disconnectEv]
  if r.1.connected then
    let s2 := { r.1 with connected := false }
    match s2.socket with
    | some _ => (({ s2 with socket := none }, evs ++ [EosEvent.socketClose]), none)
    | none => ((s2, evs), some "TypeError: this.socket is null")
  else ((r.1, evs), none)

/-- The header line of a frame: `parts.shift()` after splitting the
payload on newline (`split` always yields at least one part). -/
def headerOf (packetData : String) : String :=
  String.mk ((splitOnChar '\n' packetData.data).headD [])

/-- The body of a frame: the remaining parts rejoined with newline. -/
def bodyOf (packetData : String) : String :=
  String.mk (List.intercalate ['\n'] (splitOnChar '\n' packetData.data).tail)

/-- Method `Eos.onWebsocketMessage`: emit two debug notifications, split
the frame, parse the header as a key — there is no try/catch here, so a
parse throw escapes (the `Option String` component) — then either route a
`log` frame through `addLogEntry` or self-log the unknown schema. -/
def Eos.onWebsocketMessage (jp : String → Option JsVal) (s : EosState)
    (now : Nat) (packetData : String) : (EosState × List EosEvent) × Option String :=
  let evs0 := [EosEvent.debugS "Received packet", EosEvent.debugS packetData]
  match EosKey.parse (.strV (headerOf packetData)) with
  | .error e => ((s, evs0), some e)
  | .ok key =>
    if key.schema = "log" then
      let entry := mkEosLogEntry jp key (.strV (bodyOf packetData)) now
      let r := Eos.addLogEntry s now entry
      ((r.1, evs0 ++ [.debugE entry] ++ r.2), none)
    else
      let r := Eos.logSelf jp s now ("Unknown schema " ++ key.schema) .undefV
      ((r.1, evs0 ++ r.2), none)

/-- Folding a list of entries through `addLogEntry`, keeping the state. -/
def addEntries (s : EosState) (now : Nat) (es : List EosLogEntry) : EosState :=
  es.foldl (fun st e => (Eos.addLogEntry st now e).1) s

/-- Items of the group stored under `id`, or `[]` when absent. -/
def groupItems (s : EosState) (id : String) : List EosLogEntry :=
  match s.groups.lookup id with
  | some g => g.items
  | none => []

/-- Count of the group stored under `id`, or `0` when absent. -/
def groupCount (s : EosState) (id : String) : Nat :=
  match s.groups.lookup id with
  | some g => g.count
  | none => 0

/-- A `JSON.parse` stub that fails on every input; used to instantiate
theorems at concrete inputs whose payloads are not parsed. -/
def jpNone : String → Option JsVal := fun _ => none

/-- The group produced by `Eos.addLogEntry` for the entry's id: the found
or fresh group after `add` and after the post-hoc index assignment. -/
def postAddGroup (s : EosState) (now : Nat) (e : EosLogEntry) : EosLogGroup :=
  let id := (e.getId).jsToStr
  let group :=
    match s.groups.lookup id with
    | some g => g
    | none => EosLogGroup.init id now
  let g1 := group.add e
  { g1 with items := g1.items.dropLast ++ [{ e with index := g1.count }] }

/-- Bookkeeping invariant of one group: `count` matches `items.length` and
the recorded indices are exactly `1..count` in order. -/
def GroupOk (g : EosLogGroup) : Prop :=
  g.count = g.items.length
  ∧ g.items.map (fun e => e.index) = List.range' 1 g.count

/-- Bookkeeping invariant of the service state: every stored group
satisfies `GroupOk`. -/
def StateOk (s : EosState) : Prop :=
  ∀ id g, s.groups.lookup id = some g → GroupOk g

/-- Sample key with no tags (as parsed from `log://eos`). -/
def sampleKeyNoTags : EosKey :=
  { src := "log://eos", schema := "log", key := "eos", tags := [] }

/-- Sample key with tags `a`, `b` (as parsed from `log://svc:a:b`). -/
def sampleKeyAB : EosKey :=
  { src := "log://svc:a:b", schema := "log", key := "svc", tags := ["a", "b"] }

/-- Sample key with tags `b`, `c` (as parsed from `log://svc:b:c`). -/
def sampleKeyBC : EosKey :=
  { src := "log://svc:b:c", schema := "log", key := "svc", tags := ["b", "c"] }

/-- Sample entry whose key carries no tags. -/
def sampleEntryNoTags : EosLogEntry :=
  mkEosLogEntry jpNone sampleKeyNoTags (.strV "hello") 0

/-- Sample entry whose key carries tags `a`, `b`. -/
def sampleEntryAB : EosLogEntry :=
  mkEosLogEntry jpNone sampleKeyAB (.strV "m1") 1

/-- Sample entry whose key carries tags `b`, `c`. -/
def sampleEntryBC : EosLogEntry :=
  mkEosLogEntry jpNone sampleKeyBC (.strV "m2") 2

/-- A `JSON.parse` stub standing for a payload whose `exception` and `sql`
fields are present but falsy. -/
def jpExceptionFalse : String → Option JsVal :=
  fun _ => some (.objV [("exception", .boolV false), ("sql", .numV 0)])

/-- Entry whose structured payload contains falsy `exception` and `sql`
fields. -/
def entryExceptionFalse : EosLogEntry :=
  mkEosLogEntry jpExceptionFalse sampleKeyNoTags (.strV "payload-a") 0

/-- A `JSON.parse` stub standing for a payload with `time` present but
zero and `perf` equal to `5`. -/
def jpTimeZero : String → Option JsVal :=
  fun _ => some (.objV [("time", .numV 0), ("perf", .numV 5)])

/-- Entry whose structured payload contains a falsy `time` field and a
`perf` field. -/
def entryTimeZero : EosLogEntry :=
  mkEosLogEntry jpTimeZero sampleKeyNoTags (.strV "payload-b") 0

/-- A group whose shared tags have already narrowed to `ts`. -/
def sampleGroupShared (ts : List String) : EosLogGroup :=
  { EosLogGroup.init "g" 0 with sharedTags := some ts }

/-- A connected service state holding a live socket. -/
def sampleConnectedState : EosState :=
  { socket := some (), connected := true, groups := [] }

/-- The state after routing the two tagged sample entries. -/
def sampleC4State : EosState :=
  addEntries Eos.initState 0 [sampleEntryAB, sampleEntryBC]

/-- The default group accumulated in `sampleC4State`. -/
def sampleC4Group : EosLogGroup :=
  match sampleC4State.groups.lookup EosDefaultId with
  | some g => g
  | none => EosLogGroup.init "x" 0

/-- A frame whose schema is unknown to the dispatcher. -/
def metricsPacket : String := "metrics://x\nbody"

/-- The key parsed from the header of `metricsPacket`. -/
def metricsKey : EosKey :=
  { src := "metrics://x", schema := "metrics", key := "x", tags := [] }

/-- A frame whose schema is `log` in uppercase. -/
def upperLogPacket : String := "LOG://x\nbody"

/-- The synthetic entry that `logSelf` routes through the grouping
pipeline (named for use in lemma statements; `Eos.logSelf` builds the
same term). -/
def selfEntry (jp : String → Option JsVal) (now : Nat) (msg : String)
    (object : JsVal) : EosLogEntry :=
  mkEosLogEntry jp EosLoggingKey
    (.objV [("message", .strV msg), ("eos-id", .strV "eos"), ("object", object)]) now

/-! Helper lemmas. -/

lemma takeWhile_append_all {α : Type} (p : α → Bool) (l1 l2 : List α)
    (h : ∀ a ∈ l1, p a = true) :
    (l1 ++ l2).takeWhile p = l1 ++ l2.takeWhile p := by
  induction l1 with
  | nil => simp
  | cons hd tl ih =>
    have hhd : p hd = true := h hd (List.mem_cons_self hd tl)
    simp only [List.cons_append, List.takeWhile_cons, hhd, if_true]
    rw [ih (fun a ha => h a (List.mem_cons_of_mem hd ha))]

lemma dropWhile_append_all {α : Type} (p : α → Bool) (l1 l2 : List α)
    (h : ∀ a ∈ l1, p a = true) :
    (l1 ++ l2).dropWhile p = l2.dropWhile p := by
  induction l1 with
  | nil => simp
  | cons hd tl ih =>
    have hhd : p hd = true := h hd (List.mem_cons_self hd tl)
    simp only [List.cons_append, List.dropWhile_cons, hhd, if_true]
    exact ih (fun a ha => h a (List.mem_cons_of_mem hd ha))

lemma takeWhile_all_eq {α : Type} (p : α → Bool) (l : List α)
    (h : ∀ a ∈ l, p a = true) : l.takeWhile p = l := by
  have := takeWhile_append_all p l [] h
  simpa using this

lemma dropWhile_all_eq {α : Type} (p : α → Bool) (l : List α)
    (h : ∀ a ∈ l, p a = true) : l.dropWhile p = [] := by
  have := dropWhile_append_all p l [] h
  simpa using this

lemma data_ne_nil_of_ne_empty {s : String} (h : s ≠ "") : s.data ≠ [] := by
  intro hnil
  exact h (String.ext (by rw [hnil]))

lemma append_ne_empty_left (a b : String) (h : a ≠ "") : a ++ b ≠ "" := by
  intro hab
  apply h
  have hlen : (a ++ b).length = 0 := by rw [hab]; rfl
  rw [String.length_append] at hlen
  have hdata : a.data.length = 0 := by
    have : a.length = 0 := by omega
    exact this
  exact String.ext (by rw [List.length_eq_zero.mp hdata])

lemma mem_interFoldAux (b : List String) (a : List String) :
    ∀ (acc : List String) (x : String),
      x ∈ a.foldl
        (fun result item =>
          if result.contains item then result
          else if b.contains item then result ++ [item] else result) acc →
      x ∈ acc ∨ x ∈ a := by
  induction a with
  | nil => intro acc x hx; exact Or.inl hx
  | cons hd tl ih =>
    intro acc x hx
    simp only [List.foldl_cons] at hx
    rcases ih _ x hx with h | h
    · by_cases hc : acc.contains hd
      · rw [if_pos hc] at h
        exact Or.inl h
      · rw [if_neg hc] at h
        by_cases hb : b.contains hd
        · rw [if_pos hb] at h
          rcases List.mem_append.mp h with h1 | h1
          · exact Or.inl h1
          · simp at h1
            exact Or.inr (h1 ▸ List.mem_cons_self hd tl)
        · rw [if_neg hb] at h
          exact Or.inl h
    · exact Or.inr (List.mem_cons_of_mem hd h)

lemma mem_underscoreIntersection {a b : List String} {x : String}
    (hx : x ∈ underscoreIntersection a b) : x ∈ a := by
  rcases mem_interFoldAux b a [] x hx with h | h
  · simp at h
  · exact h

lemma sharedTags_empty_absorbing (es : List EosLogEntry) :
    ∀ g : EosLogGroup, g.sharedTags = some [] →
      (es.foldl EosLogGroup.add g).sharedTags = some [] := by
  induction es with
  | nil => intro g h; exact h
  | cons e tl ih =>
    intro g h
    simp only [List.foldl_cons]
    apply ih
    simp [EosLogGroup.add, h]

lemma lookup_setGroup_self (gs : List (String × EosLogGroup)) (id : String)
    (g : EosLogGroup) : (setGroup gs id g).lookup id = some g := by
  induction gs with
  | nil => simp [setGroup, List.lookup]
  | cons p rest ih =>
    obtain ⟨k, v⟩ := p
    by_cases hk : k = id
    · subst hk
      simp [setGroup, List.lookup]
    · simp only [setGroup, if_neg hk]
      have : (id == k) = false := by
        simp [Ne.symm hk]
      simp [List.lookup, this, ih]

lemma lookup_setGroup_ne (gs : List (String × EosLogGroup)) (id id' : String)
    (g : EosLogGroup) (h : id' ≠ id) :
    (setGroup gs id g).lookup id' = gs.lookup id' := by
  induction gs with
  | nil =>
    have : (id' == id) = false := by simp [h]
    simp [setGroup, List.lookup, this]
  | cons p rest ih =>
    obtain ⟨k, v⟩ := p
    by_cases hk : k = id
    · subst hk
      have : (id' == k) = false := by simp [h]
      simp [setGroup, List.lookup, this]
    · simp only [setGroup, if_neg hk]
      by_cases hk' : id' = k
      · subst hk'
        simp [List.lookup]
      · have : (id' == k) = false := by simp [hk']
        simp [List.lookup, this, ih]

lemma addLogEntry_fst (s : EosState) (now : Nat) (e : EosLogEntry) :
    (Eos.addLogEntry s now e).1
      = { s with groups := setGroup s.groups ((e.getId).jsToStr) (postAddGroup s now e) } :=
  rfl

lemma addLogEntry_socket (s : EosState) (now : Nat) (e : EosLogEntry) :
    (Eos.addLogEntry s now e).1.socket = s.socket := rfl

lemma addLogEntry_connected (s : EosState) (now : Nat) (e : EosLogEntry) :
    (Eos.addLogEntry s now e).1.connected = s.connected := rfl

lemma addLogEntry_lookup_ne (s : EosState) (now : Nat) (e : EosLogEntry)
    (id : String) (h : id ≠ (e.getId).jsToStr) :
    (Eos.addLogEntry s now e).1.groups.lookup id = s.groups.lookup id := by
  rw [addLogEntry_fst]
  exact lookup_setGroup_ne _ _ _ _ h

lemma addLogEntry_lookup_self (s : EosState) (now : Nat) (e : EosLogEntry) :
    (Eos.addLogEntry s now e).1.groups.lookup ((e.getId).jsToStr)
      = some (postAddGroup s now e) := by
  rw [addLogEntry_fst]
  exact lookup_setGroup_self _ _ _

lemma postAddGroup_count (s : EosState) (now : Nat) (e : EosLogEntry) :
    (postAddGroup s now e).count = groupCount s ((e.getId).jsToStr) + 1 := by
  unfold postAddGroup groupCount
  cases hlook : s.groups.lookup ((e.getId).jsToStr) <;>
    simp [EosLogGroup.add, EosLogGroup.init, hlook]

lemma postAddGroup_items (s : EosState) (now : Nat) (e : EosLogEntry) :
    (postAddGroup s now e).items
      = groupItems s ((e.getId).jsToStr)
        ++ [{ e with index := groupCount s ((e.getId).jsToStr) + 1 }] := by
  unfold postAddGroup groupItems groupCount
  cases hlook : s.groups.lookup ((e.getId).jsToStr) <;>
    simp [EosLogGroup.add, EosLogGroup.init, List.dropLast_concat, hlook]

lemma groupOk_of_stateOk (s : EosState) (id : String) (hs : StateOk s) :
    (groupItems s id).length = groupCount s id
    ∧ (groupItems s id).map (fun e => e.index) = List.range' 1 (groupCount s id) := by
  unfold groupItems groupCount
  cases hlook : s.groups.lookup id with
  | none => simp
  | some g =>
    obtain ⟨h1, h2⟩ := hs id g hlook
    exact ⟨h1.symm, h2⟩

lemma groupOk_postAdd (s : EosState) (now : Nat) (e : EosLogEntry)
    (hs : StateOk s) : GroupOk (postAddGroup s now e) := by
  obtain ⟨h1, h2⟩ := groupOk_of_stateOk s ((e.getId).jsToStr) hs
  constructor
  · rw [postAddGroup_count, postAddGroup_items]
    simp [h1]
  · rw [postAddGroup_count, postAddGroup_items, List.map_append, h2]
    have : List.range' 1 (groupCount s ((e.getId).jsToStr) + 1)
        = List.range' 1 (groupCount s ((e.getId).jsToStr))
          ++ [1 + 1 * groupCount s ((e.getId).jsToStr)] :=
      List.range'_concat 1 (groupCount s ((e.getId).jsToStr))
    rw [this]
    simp [Nat.add_comm]

lemma stateOk_addLogEntry (s : EosState) (now : Nat) (e : EosLogEntry)
    (hs : StateOk s) : StateOk (Eos.addLogEntry s now e).1 := by
  intro id g hg
  by_cases hid : id = (e.getId).jsToStr
  · subst hid
    rw [addLogEntry_lookup_self] at hg
    cases hg
    exact groupOk_postAdd s now e hs
  · rw [addLogEntry_lookup_ne s now e id hid] at hg
    exact hs id g hg

lemma stateOk_addEntries (now : Nat) (es : List EosLogEntry) :
    ∀ s : EosState, StateOk s → StateOk (addEntries s now es) := by
  induction es with
  | nil => intro s hs; exact hs
  | cons e tl ih =>
    intro s hs
    exact ih _ (stateOk_addLogEntry s now e hs)

lemma groupCount_addLogEntry (s : EosState) (now : Nat) (e : EosLogEntry)
    (id : String) :
    groupCount (Eos.addLogEntry s now e).1 id
      = groupCount s id + (if (e.getId).jsToStr == id then 1 else 0) := by
  by_cases hid : id = (e.getId).jsToStr
  · subst hid
    unfold groupCount
    rw [addLogEntry_lookup_self]
    have := postAddGroup_count s now e
    simp only [beq_self_eq_true, if_true]
    rw [this]
    unfold groupCount
    rfl
  · unfold groupCount
    rw [addLogEntry_lookup_ne s now e id hid]
    have : ((e.getId).jsToStr == id) = false := by
      simp [Ne.symm hid]
    simp [this]

lemma groupCount_addEntries (now : Nat) (id : String) (es : List EosLogEntry) :
    ∀ s : EosState,
      groupCount (addEntries s now es) id
        = groupCount s id + (es.filter (fun e => (e.getId).jsToStr == id)).length := by
  induction es with
  | nil => intro s; simp [addEntries]
  | cons e tl ih =>
    intro s
    have hstep : addEntries s now (e :: tl) = addEntries (Eos.addLogEntry s now e).1 now tl := rfl
    rw [hstep, ih, groupCount_addLogEntry, List.filter_cons]
    by_cases hb : ((e.getId).jsToStr == id) = true
    · simp [hb]
      omega
    · simp only [hb, if_false]
      simp at hb
      have : ((e.getId).jsToStr == id) = false := by simp [hb]
      simp [this]

lemma errorsCount_foldl (es : List EosLogEntry) :
    ∀ g : EosLogGroup,
      (es.foldl EosLogGroup.add g).errorsCount
        = g.errorsCount + (es.filter (fun e => e.hasException)).length := by
  induction es with
  | nil => intro g; simp
  | cons e tl ih =>
    intro g
    simp only [List.foldl_cons, List.filter_cons]
    rw [ih]
    by_cases he : e.hasException
    · simp [EosLogGroup.add, he]
      omega
    · simp [EosLogGroup.add, he]

lemma sqlCount_foldl (es : List EosLogEntry) :
    ∀ g : EosLogGroup,
      (es.foldl EosLogGroup.add g).sqlCount
        = g.sqlCount + (es.filter (fun e => e.hasSql)).length := by
  induction es with
  | nil => intro g; simp
  | cons e tl ih =>
    intro g
    simp only [List.foldl_cons, List.filter_cons]
    rw [ih]
    by_cases he : e.hasSql
    · simp [EosLogGroup.add, he]
      omega
    · simp [EosLogGroup.add, he]

lemma performance_foldl (es : List EosLogEntry) :
    ∀ g : EosLogGroup,
      (es.foldl EosLogGroup.add g).performance
        = (es.filter (fun e => e.hasPerformanceLog)).foldl
            (fun acc e => jsAdd acc (e.object.getProp "perf")) g.performance := by
  induction es with
  | nil => intro g; simp
  | cons e tl ih =>
    intro g
    simp only [List.foldl_cons, List.filter_cons]
    by_cases he : e.hasPerformanceLog
    · simp only [he, if_true, List.foldl_cons]
      rw [ih]
      have : (EosLogGroup.add g e).performance
          = jsAdd g.performance (e.object.getProp "perf") := by
        simp [EosLogGroup.add, he]
      rw [this]
    · simp only [he]
      rw [ih]
      have : (EosLogGroup.add g e).performance = g.performance := by
        simp [EosLogGroup.add, he]
      rw [this]
      simp [he]

lemma addLogEntry_groupItems_self (s : EosState) (now : Nat) (e : EosLogEntry) :
    groupItems (Eos.addLogEntry s now e).1 ((e.getId).jsToStr)
      = groupItems s ((e.getId).jsToStr)
        ++ [{ e with index := groupCount s ((e.getId).jsToStr) + 1 }] := by
  have h1 : groupItems (Eos.addLogEntry s now e).1 ((e.getId).jsToStr)
      = (postAddGroup s now e).items := by
    unfold groupItems
    rw [addLogEntry_lookup_self]
  rw [h1, postAddGroup_items]

lemma logSelf_eq (jp : String → Option JsVal) (s : EosState) (now : Nat)
    (msg : String) (object : JsVal) :
    Eos.logSelf jp s now msg object
      = ((Eos.addLogEntry s now (selfEntry jp now msg object)).1,
         .log msg :: (Eos.addLogEntry s now (selfEntry jp now msg object)).2) :=
  rfl

lemma selfEntry_getId (jp : String → Option JsVal) (now : Nat) (msg : String)
    (object : JsVal) : ((selfEntry jp now msg object).getId).jsToStr = "eos" :=
  rfl

lemma selfEntry_message (jp : String → Option JsVal) (now : Nat) (msg : String)
    (object : JsVal) (h : msg ≠ "") :
    (selfEntry jp now msg object).message = .strV msg := by
  have hb : (msg != "") = true := by simp [h]
  show (if (msg != "") = true then JsVal.strV msg else _) = JsVal.strV msg
  rw [if_pos hb]

lemma logSelf_socket (jp : String → Option JsVal) (s : EosState) (now : Nat)
    (msg : String) (object : JsVal) :
    (Eos.logSelf jp s now msg object).1.socket = s.socket := rfl

lemma logSelf_connected (jp : String → Option JsVal) (s : EosState) (now : Nat)
    (msg : String) (object : JsVal) :
    (Eos.logSelf jp s now msg object).1.connected = s.connected := rfl

lemma onMessage_unknown (jp : String → Option JsVal) (s : EosState) (now : Nat)
    (packet : String) (key : EosKey)
    (hp : EosKey.parse (.strV (headerOf packet)) = Except.ok key)
    (hs : key.schema ≠ "log") :
    (Eos.onWebsocketMessage jp s now packet).2 = none
    ∧ (∀ id, id ≠ "eos" →
        (Eos.onWebsocketMessage jp s now packet).1.1.groups.lookup id
          = s.groups.lookup id)
    ∧ (groupItems (Eos.onWebsocketMessage jp s now packet).1.1 "eos").map
          (fun e => e.message)
        = (groupItems s "eos").map (fun e => e.message)
          ++ [JsVal.strV ("Unknown schema " ++ key.schema)]
    ∧ (Eos.onWebsocketMessage jp s now packet).1.1.socket = s.socket
    ∧ (Eos.onWebsocketMessage jp s now packet).1.1.connected = s.connected := by
  have hmain : Eos.onWebsocketMessage jp s now packet
      = (((Eos.logSelf jp s now ("Unknown schema " ++ key.schema) JsVal.undefV).1,
          [EosEvent.debugS "Received packet", EosEvent.debugS packet]
            ++ (Eos.logSelf jp s now ("Unknown schema " ++ key.schema) JsVal.undefV).2),
         none) := by
    unfold Eos.onWebsocketMessage
    rw [hp]
    simp [hs]
  have hne : "Unknown schema " ++ key.schema ≠ "" :=
    append_ne_empty_left _ _ (by decide)
  rw [hmain]
  refine ⟨rfl, ?_, ?_, rfl, rfl⟩
  · intro id hid
    rw [logSelf_eq]
    exact addLogEntry_lookup_ne _ _ _ _ (by rw [selfEntry_getId]; exact hid)
  · rw [logSelf_eq]
    have hgi := addLogEntry_groupItems_self s now
      (selfEntry jp now ("Unknown schema " ++ key.schema) JsVal.undefV)
    rw [selfEntry_getId] at hgi
    rw [hgi, List.map_append]
    have hm : ({ selfEntry jp now ("Unknown schema " ++ key.schema) JsVal.undefV with
        index := groupCount s "eos" + 1 }).message
        = JsVal.strV ("Unknown schema " ++ key.schema) := by
      show (selfEntry jp now ("Unknown schema " ++ key.schema) JsVal.undefV).message = _
      exact selfEntry_message jp now _ JsVal.undefV hne
    rw [List.map_singleton, hm]

lemma mk_data (s : String) : String.mk s.data = s := by
  cases s
  rfl

lemma mk_nil_eq_empty : String.mk [] = "" := rfl

lemma execKeySchema_concat (sch id : String) (h1 : sch ≠ "")
    (h2 : ∀ c ∈ sch.data, c.isAlpha = true)
    (h3 : id ≠ "") (h4 : ∀ c ∈ id.data, (c != ':') = true) :
    execKeySchema (sch ++ "://" ++ id) = some (sch, id, "") := by
  have hdata : (sch ++ "://" ++ id).toList
      = sch.data ++ (':' :: '/' :: '/' :: id.data) := by
    show (sch ++ "://" ++ id).data = _
    rw [String.data_append, String.data_append, List.append_assoc]
    rfl
  have hschEmpty : sch.data.isEmpty = false := by
    cases hd : sch.data with
    | nil => exact absurd hd (data_ne_nil_of_ne_empty h1)
    | cons c cs => rfl
  have hidEmpty : id.data.isEmpty = false := by
    cases hd : id.data with
    | nil => exact absurd hd (data_ne_nil_of_ne_empty h3)
    | cons c cs => rfl
  have htake : (sch.data ++ (':' :: '/' :: '/' :: id.data)).takeWhile Char.isAlpha
      = sch.data := by
    rw [takeWhile_append_all Char.isAlpha sch.data _ h2]
    simp [List.takeWhile_cons]
  have hdrop : (sch.data ++ (':' :: '/' :: '/' :: id.data)).dropWhile Char.isAlpha
      = ':' :: '/' :: '/' :: id.data := by
    rw [dropWhile_append_all Char.isAlpha sch.data _ h2]
    simp [List.dropWhile_cons]
  have hktake : id.data.takeWhile (fun c => c != ':') = id.data :=
    takeWhile_all_eq _ _ h4
  have hkdrop : id.data.dropWhile (fun c => c != ':') = [] :=
    dropWhile_all_eq _ _ h4
  unfold execKeySchema
  simp only [hdata, htake, hdrop, hschEmpty, hktake, hkdrop, hidEmpty,
    Bool.false_eq_true, if_false, mk_data, mk_nil_eq_empty]

lemma parse_concat (sch id : String) (h1 : sch ≠ "")
    (h2 : ∀ c ∈ sch.data, c.isAlpha = true)
    (h3 : id ≠ "") (h4 : ∀ c ∈ id.data, (c != ':') = true) :
    EosKey.parse (.strV (sch ++ "://" ++ id))
      = Except.ok { src := sch ++ "://" ++ id, schema := sch, key := id, tags := [] } := by
  have hstep : EosKey.parse (.strV (sch ++ "://" ++ id))
      = match execKeySchema (sch ++ "://" ++ id) with
        | some (sch', k, rest) =>
          Except.ok { src := sch ++ "://" ++ id, schema := sch', key := k,
                      tags := ((splitOnChar ':' (jsTrim rest.data)).map String.mk).filter
                        (fun x => x != "") }
        | none => Except.error "Cannot parse schema" := rfl
  rw [hstep, execKeySchema_concat sch id h1 h2 h3 h4]
  rfl

lemma addLogEntry_snd (s : EosState) (now : Nat) (e : EosLogEntry) :
    (Eos.addLogEntry s now e).2
      = [EosEvent.newLogEntry { e with index := (postAddGroup s now e).count }
          (postAddGroup s now e)] :=
  rfl

lemma logSelf_events (jp : String → Option JsVal) (s : EosState) (now : Nat)
    (msg : String) (object : JsVal) :
    (Eos.logSelf jp s now msg object).2
      = [EosEvent.log msg,
         EosEvent.newLogEntry
           { selfEntry jp now msg object with
             index := (postAddGroup s now (selfEntry jp now msg object)).count }
           (postAddGroup s now (selfEntry jp now msg object))] :=
  rfl

lemma disconnect_not_connected (jp : String → Option JsVal) (s : EosState)
    (now : Nat) (hc : s.connected = false) :
    Eos.disconnect jp s now
      = (((Eos.logSelf jp s now "Disconnecting" JsVal.undefV).1,
          (Eos.logSelf jp s now "Disconnecting" JsVal.undefV).2
            ++ [EosEvent.disconnectEv]),
         none) := by
  unfold Eos.disconnect
  have hcc : (Eos.logSelf jp s now "Disconnecting" JsVal.undefV).1.connected = false := by
    rw [logSelf_connected]
    exact hc
  simp [hcc]

lemma disconnect_connected (jp : String → Option JsVal) (s : EosState)
    (now : Nat) (hc : s.connected = true) (hsock : s.socket = some ()) :
    Eos.disconnect jp s now
      = (({ (Eos.logSelf jp s now "Disconnecting" JsVal.undefV).1 with
            connected := false
            socket := none },
          (Eos.logSelf jp s now "Disconnecting" JsVal.undefV).2
            ++ [EosEvent.disconnectEv] ++ [EosEvent.socketClose]),
         none) := by
  unfold Eos.disconnect
  have hcc : (Eos.logSelf jp s now "Disconnecting" JsVal.undefV).1.connected = true := by
    rw [logSelf_connected]
    exact hc
  have hss : (Eos.logSelf jp s now "Disconnecting" JsVal.undefV).1.socket = some () := by
    rw [logSelf_socket]
    exact hsock
  simp [hcc, hss]

/-! Claim theorems. -/

/-- C1 (evaluation at the failing input): the source guard
`if (entry.key.tags)` is truthy even for an empty tags array, so the very
first (untagged) entry installs `[]` as `sharedTags` instead of leaving it
`null`, and that empty set then absorbs the later genuinely tagged entry —
contradicting the claim that untagged entries never change `sharedTags`
and that it stays `null` until the first tagged entry arrives. -/
theorem c1_tags_guard_eval :
    sampleEntryNoTags.key.tags = []
    ∧ ((EosLogGroup.init "g" 0).add sampleEntryNoTags).sharedTags = some []
    ∧ sampleEntryAB.key.tags = ["a", "b"]
    ∧ (((EosLogGroup.init "g" 0).add sampleEntryNoTags).add sampleEntryAB).sharedTags
        = some [] :=
  ⟨rfl, rfl, rfl, rfl⟩

/-- C2 (counterexample to the claim as stated): a frame whose header has
no `://` makes the key constructor throw, and `onWebsocketMessage` lets
the exception escape instead of catching it — the second component of the
result records the uncaught throw. -/
theorem c2_counterexample :
    (Eos.onWebsocketMessage jpNone Eos.initState 0 "garbage\nbody").2
      = some "Cannot parse schema" :=
  rfl

/-- C2 (amended): for every frame whose header line fails to parse, the
parse error propagates out of `onWebsocketMessage` (there is no catch in
the dispatch path), and the service state is returned unchanged, so the
malformed frame causes no mutation and later frames are processed exactly
as from the prior state. -/
theorem c2_escape (jp : String → Option JsVal) (s : EosState) (now : Nat)
    (packet msg : String)
    (h : EosKey.parse (.strV (headerOf packet)) = Except.error msg) :
    Eos.onWebsocketMessage jp s now packet
      = ((s, [EosEvent.debugS "Received packet", EosEvent.debugS packet]), some msg) := by
  unfold Eos.onWebsocketMessage
  rw [h]

/-- C2 witness: the amended statement at a concrete malformed frame. -/
theorem c2_escape_witness :
    Eos.onWebsocketMessage jpNone Eos.initState 0 "no-schema-here\nbody"
      = ((Eos.initState,
          [EosEvent.debugS "Received packet", EosEvent.debugS "no-schema-here\nbody"]),
         some "Cannot parse schema") :=
  c2_escape jpNone Eos.initState 0 "no-schema-here\nbody" "Cannot parse schema" rfl

/-- C3: for every group whose `sharedTags` is already non-null, one more
`add` keeps it non-null and only narrows it (every surviving tag was
already shared), and once the shared set is empty it stays empty under any
further sequence of adds, whatever their tags. -/
theorem c3_sharedTags_monotone (g : EosLogGroup) (e : EosLogEntry)
    (ts : List String) (h : g.sharedTags = some ts) :
    (∃ ts', (g.add e).sharedTags = some ts' ∧ ∀ x ∈ ts', x ∈ ts)
    ∧ (ts = [] → ∀ es : List EosLogEntry,
        (es.foldl EosLogGroup.add (g.add e)).sharedTags = some []) := by
  constructor
  · by_cases hts : ts.length = 0
    · refine ⟨ts, ?_, fun x hx => hx⟩
      simp [EosLogGroup.add, h, hts]
    · refine ⟨underscoreIntersection ts e.key.tags, ?_,
        fun x hx => mem_underscoreIntersection hx⟩
      simp [EosLogGroup.add, h, hts]
  · intro hts es
    apply sharedTags_empty_absorbing
    subst hts
    simp [EosLogGroup.add, h]

/-- C3 witness: the monotonicity statement applied to a group whose
shared tags are `[a, b]` and an entry tagged `[b, c]`. -/
theorem c3_sharedTags_monotone_witness :
    (∃ ts', ((sampleGroupShared ["a", "b"]).add sampleEntryBC).sharedTags = some ts'
      ∧ ∀ x ∈ ts', x ∈ (["a", "b"] : List String))
    ∧ ((["a", "b"] : List String) = [] → ∀ es : List EosLogEntry,
        (es.foldl EosLogGroup.add
          ((sampleGroupShared ["a", "b"]).add sampleEntryBC)).sharedTags = some []) :=
  c3_sharedTags_monotone (sampleGroupShared ["a", "b"]) sampleEntryBC ["a", "b"] rfl

/-- C4: routing any sequence of entries through `addLogEntry` from the
initial state gives every accumulated group a `count` equal to the number
of entries routed to it, `items` of exactly that length, and recorded
indices exactly `1..count` in arrival order. -/
theorem c4_count_index (es : List EosLogEntry) (now : Nat) (id : String)
    (g : EosLogGroup)
    (h : (addEntries Eos.initState now es).groups.lookup id = some g) :
    g.count = (es.filter (fun e => (e.getId).jsToStr == id)).length
    ∧ g.items.length = g.count
    ∧ g.items.map (fun e => e.index) = List.range' 1 g.count := by
  have hinit : StateOk Eos.initState := by
    intro id' g' hg'
    simp [Eos.initState, List.lookup] at hg'
  obtain ⟨h1, h2⟩ := stateOk_addEntries now es Eos.initState hinit id g h
  have hcnt := groupCount_addEntries now id es Eos.initState
  have hgc : groupCount (addEntries Eos.initState now es) id = g.count := by
    unfold groupCount
    rw [h]
  have hzero : groupCount Eos.initState id = 0 := rfl
  rw [hgc, hzero] at hcnt
  exact ⟨by omega, h1.symm, h2⟩

/-- C4 witness: two entries routed to the default group receive indices
`1` and `2`, and the group's count and item list agree. -/
theorem c4_count_index_witness :
    sampleC4Group.count
        = ([sampleEntryAB, sampleEntryBC].filter
            (fun e => (e.getId).jsToStr == EosDefaultId)).length
    ∧ sampleC4Group.items.length = sampleC4Group.count
    ∧ sampleC4Group.items.map (fun e => e.index) = List.range' 1 sampleC4Group.count :=
  c4_count_index [sampleEntryAB, sampleEntryBC] 0 EosDefaultId sampleC4Group rfl

/-- C5 (counterexample to the claim as stated): a non-textual, non-object
payload (the number `42`) becomes `structured` itself — the constructor's
else-branch assigns `rawData` unconditionally — whereas the claim says the
fallback for such values is an empty mapping. -/
theorem c5_counterexample :
    (mkEosLogEntry jpNone sampleKeyNoTags (.numV 42) 0).object = JsVal.numV 42
    ∧ JsVal.numV 42 ≠ JsVal.objV [] :=
  ⟨rfl, fun hcontra => JsVal.noConfusion hcontra⟩

/-- C5 (amended): when `rawData` is textual and its parse fails,
`structured` is the empty mapping and `message` equals the raw data (the
failure is swallowed, construction is total); when `rawData` is not
textual, `structured` is `rawData` itself whether or not it is an
object. -/
theorem c5_structured_fallback (jp : String → Option JsVal) (key : EosKey)
    (s : String) (data : JsVal) (now : Nat) (hs : jp s = none)
    (hd : ∀ t, data ≠ JsVal.strV t) :
    ((mkEosLogEntry jp key (.strV s) now).object = JsVal.objV []
      ∧ (mkEosLogEntry jp key (.strV s) now).message = JsVal.strV s)
    ∧ (mkEosLogEntry jp key data now).object = data := by
  refine ⟨⟨?_, ?_⟩, ?_⟩
  · simp [mkEosLogEntry, hs]
  · simp [mkEosLogEntry, hs, JsVal.getProp, JsVal.truthy]
  · cases data with
    | strV t => exact absurd rfl (hd t)
    | undefV => rfl
    | nanV => rfl
    | boolV b => rfl
    | numV n => rfl
    | objV fields => rfl

/-- C5 witness: the amended statement at an unparseable string payload
and at a numeric payload. -/
theorem c5_structured_fallback_witness :
    ((mkEosLogEntry jpNone sampleKeyNoTags (.strV "not-json") 0).object = JsVal.objV []
      ∧ (mkEosLogEntry jpNone sampleKeyNoTags (.strV "not-json") 0).message
          = JsVal.strV "not-json")
    ∧ (mkEosLogEntry jpNone sampleKeyNoTags (.numV 7) 0).object = JsVal.numV 7 :=
  c5_structured_fallback jpNone sampleKeyNoTags "not-json" (.numV 7) 0 rfl
    (fun _ hcontra => JsVal.noConfusion hcontra)

/-- C6 (counterexample to the claim as stated): an entry whose structured
payload contains an `exception` field and an `sql` field with falsy values
is not counted by the group — the source predicates test truthiness, not
field presence. -/
theorem c6_counterexample :
    ((EosLogGroup.init "g" 0).add entryExceptionFalse).errorsCount
        ≠ ([entryExceptionFalse].filter
            (fun e => specContainsField e.object "exception")).length
    ∧ ((EosLogGroup.init "g" 0).add entryExceptionFalse).sqlCount
        ≠ ([entryExceptionFalse].filter
            (fun e => specContainsField e.object "sql")).length := by
  constructor <;> decide

/-- C6 (amended): for every sequence of added entries, `errorsCount`
equals the number of entries whose structured payload has a truthy
`exception` field, and `sqlCount` the number with a truthy `sql` field
(the source's `hasException`/`hasSql` predicates). -/
theorem c6_truthy_counts (entries : List EosLogEntry) (id : String) (now : Nat) :
    (entries.foldl EosLogGroup.add (EosLogGroup.init id now)).errorsCount
        = (entries.filter (fun e => e.hasException)).length
    ∧ (entries.foldl EosLogGroup.add (EosLogGroup.init id now)).sqlCount
        = (entries.filter (fun e => e.hasSql)).length := by
  constructor
  · rw [errorsCount_foldl]
    simp [EosLogGroup.init]
  · rw [sqlCount_foldl]
    simp [EosLogGroup.init]

/-- C7: dispatching a frame whose parsed schema is not `log` is
non-fatal, leaves every group other than the `eos` self-log group
untouched (and the socket and connected flag), and appends exactly one
self-log entry, whose message reports the unknown schema, to the `eos`
group. -/
theorem c7_unknown_schema (jp : String → Option JsVal) (s : EosState) (now : Nat)
    (packet : String) (key : EosKey)
    (hp : EosKey.parse (.strV (headerOf packet)) = Except.ok key)
    (hs : key.schema ≠ "log") :
    (Eos.onWebsocketMessage jp s now packet).2 = none
    ∧ (∀ id, id ≠ "eos" →
        (Eos.onWebsocketMessage jp s now packet).1.1.groups.lookup id
          = s.groups.lookup id)
    ∧ (groupItems (Eos.onWebsocketMessage jp s now packet).1.1 "eos").map
          (fun e => e.message)
        = (groupItems s "eos").map (fun e => e.message)
          ++ [JsVal.strV ("Unknown schema " ++ key.schema)]
    ∧ (Eos.onWebsocketMessage jp s now packet).1.1.socket = s.socket
    ∧ (Eos.onWebsocketMessage jp s now packet).1.1.connected = s.connected :=
  onMessage_unknown jp s now packet key hp hs

/-- C7 witness: the unknown-schema statement at the concrete frame
`metrics://x` with body `body`, from the initial state. -/
theorem c7_unknown_schema_witness :
    (Eos.onWebsocketMessage jpNone Eos.initState 0 metricsPacket).2 = none
    ∧ (∀ id, id ≠ "eos" →
        (Eos.onWebsocketMessage jpNone Eos.initState 0 metricsPacket).1.1.groups.lookup id
          = Eos.initState.groups.lookup id)
    ∧ (groupItems (Eos.onWebsocketMessage jpNone Eos.initState 0 metricsPacket).1.1
          "eos").map (fun e => e.message)
        = (groupItems Eos.initState "eos").map (fun e => e.message)
          ++ [JsVal.strV ("Unknown schema " ++ metricsKey.schema)]
    ∧ (Eos.onWebsocketMessage jpNone Eos.initState 0 metricsPacket).1.1.socket
        = Eos.initState.socket
    ∧ (Eos.onWebsocketMessage jpNone Eos.initState 0 metricsPacket).1.1.connected
        = Eos.initState.connected :=
  c7_unknown_schema jpNone Eos.initState 0 metricsPacket metricsKey rfl (by decide)

/-- C8: `disconnect` never throws (given the invariant that a connected
state holds a socket), always emits the `disconnect` notification and the
"Disconnecting" log; it closes the socket and clears the handle and flag
exactly when currently connected; and a second call right after is again
safe, emits the notification again, and leaves the connected flag and
socket handle unchanged. -/
theorem c8_disconnect_idempotent (jp : String → Option JsVal) (s : EosState)
    (n1 n2 : Nat) (hsock : s.connected = true → s.socket.isSome = true) :
    ((Eos.disconnect jp s n1).2 = none
      ∧ EosEvent.disconnectEv ∈ (Eos.disconnect jp s n1).1.2
      ∧ EosEvent.log "Disconnecting" ∈ (Eos.disconnect jp s n1).1.2)
    ∧ (s.connected = false →
        (Eos.disconnect jp s n1).1.1.connected = s.connected
        ∧ (Eos.disconnect jp s n1).1.1.socket = s.socket
        ∧ EosEvent.socketClose ∉ (Eos.disconnect jp s n1).1.2)
    ∧ (s.connected = true →
        (Eos.disconnect jp s n1).1.1.connected = false
        ∧ (Eos.disconnect jp s n1).1.1.socket = none
        ∧ EosEvent.socketClose ∈ (Eos.disconnect jp s n1).1.2)
    ∧ ((Eos.disconnect jp (Eos.disconnect jp s n1).1.1 n2).2 = none
      ∧ EosEvent.disconnectEv ∈ (Eos.disconnect jp (Eos.disconnect jp s n1).1.1 n2).1.2
      ∧ (Eos.disconnect jp (Eos.disconnect jp s n1).1.1 n2).1.1.connected
          = (Eos.disconnect jp s n1).1.1.connected
      ∧ (Eos.disconnect jp (Eos.disconnect jp s n1).1.1 n2).1.1.socket
          = (Eos.disconnect jp s n1).1.1.socket) := by
  by_cases hc : s.connected = true
  · have hu : s.socket = some () := by
      cases hsu : s.socket with
      | none =>
        have := hsock hc
        rw [hsu] at this
        simp at this
      | some x => cases x; rfl
    have h1 := disconnect_connected jp s n1 hc hu
    have h2 := disconnect_not_connected jp
      ({ (Eos.logSelf jp s n1 "Disconnecting" JsVal.undefV).1 with
         connected := false
         socket := none }) n2 rfl
    refine ⟨⟨?_, ?_, ?_⟩, ?_, fun _ => ⟨?_, ?_, ?_⟩, ⟨?_, ?_, ?_, ?_⟩⟩
    · rw [h1]
    · rw [h1]
      simp [List.mem_append]
    · rw [h1]
      simp [logSelf_events, List.mem_append]
    · intro hf
      rw [hf] at hc
      cases hc
    · rw [h1]
    · rw [h1]
    · rw [h1]
      simp [List.mem_append]
    · rw [h1, h2]
    · rw [h1, h2]
      simp [List.mem_append]
    · rw [h1, h2, logSelf_connected]
    · rw [h1, h2, logSelf_socket]
  · have hcf : s.connected = false := by
      cases hb : s.connected with
      | true => exact absurd hb hc
      | false => rfl
    have h1 := disconnect_not_connected jp s n1 hcf
    have h2 := disconnect_not_connected jp
      (Eos.logSelf jp s n1 "Disconnecting" JsVal.undefV).1 n2
      (by rw [logSelf_connected]; exact hcf)
    refine ⟨⟨?_, ?_, ?_⟩, fun _ => ⟨?_, ?_, ?_⟩, ?_, ⟨?_, ?_, ?_, ?_⟩⟩
    · rw [h1]
    · rw [h1]
      simp [List.mem_append]
    · rw [h1]
      simp [logSelf_events, List.mem_append]
    · rw [h1, logSelf_connected]
    · rw [h1, logSelf_socket]
    · rw [h1]
      simp [logSelf_events, List.mem_append]
    · intro hf
      rw [hf] at hcf
      cases hcf
    · rw [h1, h2]
    · rw [h1, h2]
      simp [List.mem_append]
    · rw [h1, h2, logSelf_connected]
    · rw [h1, h2, logSelf_socket]

/-- C8 witness: the idempotence statement at a connected state with a
live socket and at two concrete times. -/
theorem c8_disconnect_idempotent_witness :
    ((Eos.disconnect jpNone sampleConnectedState 0).2 = none
      ∧ EosEvent.disconnectEv ∈ (Eos.disconnect jpNone sampleConnectedState 0).1.2
      ∧ EosEvent.log "Disconnecting" ∈ (Eos.disconnect jpNone sampleConnectedState 0).1.2)
    ∧ (sampleConnectedState.connected = false →
        (Eos.disconnect jpNone sampleConnectedState 0).1.1.connected
            = sampleConnectedState.connected
        ∧ (Eos.disconnect jpNone sampleConnectedState 0).1.1.socket
            = sampleConnectedState.socket
        ∧ EosEvent.socketClose ∉ (Eos.disconnect jpNone sampleConnectedState 0).1.2)
    ∧ (sampleConnectedState.connected = true →
        (Eos.disconnect jpNone sampleConnectedState 0).1.1.connected = false
        ∧ (Eos.disconnect jpNone sampleConnectedState 0).1.1.socket = none
        ∧ EosEvent.socketClose ∈ (Eos.disconnect jpNone sampleConnectedState 0).1.2)
    ∧ ((Eos.disconnect jpNone (Eos.disconnect jpNone sampleConnectedState 0).1.1 1).2 = none
      ∧ EosEvent.disconnectEv
          ∈ (Eos.disconnect jpNone (Eos.disconnect jpNone sampleConnectedState 0).1.1 1).1.2
      ∧ (Eos.disconnect jpNone (Eos.disconnect jpNone sampleConnectedState 0).1.1 1).1.1.connected
          = (Eos.disconnect jpNone sampleConnectedState 0).1.1.connected
      ∧ (Eos.disconnect jpNone (Eos.disconnect jpNone sampleConnectedState 0).1.1 1).1.1.socket
          = (Eos.disconnect jpNone sampleConnectedState 0).1.1.socket) :=
  c8_disconnect_idempotent jpNone sampleConnectedState 0 1 (fun _ => rfl)

/-- C9 (counterexample to the claim as stated): an entry whose structured
payload has a `time` field holding `0` (falsy) and a `perf` field holding
`5` leaves the accumulator untouched, whereas the claim (trigger: has a
`time` field) predicts it gains the `perf` value. -/
theorem c9_counterexample :
    specContainsField entryTimeZero.object "time" = true
    ∧ ((EosLogGroup.init "g" 0).add entryTimeZero).performance = JsVal.numV 0
    ∧ jsAdd (EosLogGroup.init "g" 0).performance (entryTimeZero.object.getProp "perf")
        = JsVal.numV 5
    ∧ ((EosLogGroup.init "g" 0).add entryTimeZero).performance
        ≠ jsAdd (EosLogGroup.init "g" 0).performance
            (entryTimeZero.object.getProp "perf") := by
  refine ⟨rfl, rfl, rfl, ?_⟩
  intro hcontra
  rw [show ((EosLogGroup.init "g" 0).add entryTimeZero).performance = JsVal.numV 0
        from rfl,
      show jsAdd (EosLogGroup.init "g" 0).performance
          (entryTimeZero.object.getProp "perf") = JsVal.numV 5 from rfl] at hcontra
  injection hcontra with hn
  exact absurd hn (by decide)

/-- C9 (amended): over any sequence of added entries the accumulator
equals the fold of JavaScript `+` over the `perf` fields of exactly those
entries whose structured payload has a truthy `time` field — the trigger
reads `time` while the accumulated value reads `perf`, and this asymmetry
is preserved. -/
theorem c9_perf_accumulation (entries : List EosLogEntry) (id : String) (now : Nat) :
    (entries.foldl EosLogGroup.add (EosLogGroup.init id now)).performance
      = (entries.filter (fun e => e.hasPerformanceLog)).foldl
          (fun acc e => jsAdd acc (e.object.getProp "perf")) (JsVal.numV 0) := by
  rw [performance_foldl]
  rfl

/-- C10: the key regex accepts the schema case-insensitively and records
it with its source casing, while dispatch compares the schema to the
exact lowercase string `log`; hence a frame whose header is an uppercase
variant such as `LOG://x` parses successfully but is reported as an
unknown schema instead of being ingested. -/
theorem c10_schema_case (jp : String → Option JsVal) (s : EosState) (now : Nat)
    (packet sch id : String)
    (hhdr : headerOf packet = sch ++ "://" ++ id)
    (hsch1 : sch ≠ "") (hsch2 : ∀ c ∈ sch.data, c.isAlpha = true)
    (hid1 : id ≠ "") (hid2 : ∀ c ∈ id.data, (c != ':') = true)
    (hlog : sch ≠ "log") :
    EosKey.parse (.strV (sch ++ "://" ++ id))
      = Except.ok { src := sch ++ "://" ++ id, schema := sch, key := id, tags := [] }
    ∧ (Eos.onWebsocketMessage jp s now packet).2 = none
    ∧ (∀ gid, gid ≠ "eos" →
        (Eos.onWebsocketMessage jp s now packet).1.1.groups.lookup gid
          = s.groups.lookup gid)
    ∧ (groupItems (Eos.onWebsocketMessage jp s now packet).1.1 "eos").map
          (fun e => e.message)
        = (groupItems s "eos").map (fun e => e.message)
          ++ [JsVal.strV ("Unknown schema " ++ sch)] := by
  have hparse := parse_concat sch id hsch1 hsch2 hid1 hid2
  have hp : EosKey.parse (.strV (headerOf packet))
      = Except.ok { src := sch ++ "://" ++ id, schema := sch, key := id, tags := [] } := by
    rw [hhdr]
    exact hparse
  have hu := onMessage_unknown jp s now packet
    { src := sch ++ "://" ++ id, schema := sch, key := id, tags := [] } hp hlog
  exact ⟨hparse, hu.1, hu.2.1, hu.2.2.1⟩

/-- C10 witness: the case-sensitivity statement at the concrete frame
`LOG://x` with body `body`. -/
theorem c10_schema_case_witness :
    EosKey.parse (.strV ("LOG" ++ "://" ++ "x"))
      = Except.ok { src := "LOG" ++ "://" ++ "x", schema := "LOG", key := "x", tags := [] }
    ∧ (Eos.onWebsocketMessage jpNone Eos.initState 0 upperLogPacket).2 = none
    ∧ (∀ gid, gid ≠ "eos" →
        (Eos.onWebsocketMessage jpNone Eos.initState 0 upperLogPacket).1.1.groups.lookup gid
          = Eos.initState.groups.lookup gid)
    ∧ (groupItems (Eos.onWebsocketMessage jpNone Eos.initState 0 upperLogPacket).1.1
          "eos").map (fun e => e.message)
        = (groupItems Eos.initState "eos").map (fun e => e.message)
          ++ [JsVal.strV ("Unknown schema " ++ "LOG")] :=
  c10_schema_case jpNone Eos.initState 0 upperLogPacket "LOG" "x" rfl (by decide)
    (by decide) (by decide) (by decide) (by decide)

end EosWs
